import Mathlib

/-!
Verification of the swap execution and simulation engine of futarchy-bots.

The definitions below are a shallow embedding of the Python source:

* `src/futarchy/experimental/exchanges/sushiswap/swap.py`
    (`SushiSwapV3Handler.swap_exact_in`): price-limit computation with
    Python `Decimal` arithmetic (28 significant digits, round-half-even),
    approval logic, and the result dictionary returned on success.
* `src/main.py` (`swap_gno_yes_to_sdai_yes` command path and the
    `execute_arbitrage_sell_synthetic_gno` orchestration): unclamped price
    limits, the inline YES/NO balancing step and the merge step.
* `src/futarchy/experimental/exchanges/swapr/swap.py`
    (`SwaprV3Handler.swap_exact_in`): parameters of the execution
    transaction (`amountOutMinimum`, `limitSqrtPrice`).
* `src/futarchy/experimental/exchanges/balancer/swap.py`
    (`BalancerSwapHandler.swap_exact_in`, `_ensure_permit2_approval`).
* `src/futarchy/experimental/services/tenderly_client.py`
    (`TenderlySimulationClient.simulate_bundle`).
* `src/futarchy/experimental/models/conditional_token_model.py`
    (`ConditionalTokenModel.merge_position`).

Amounts in wei are naturals, prices and token holdings in ether units are
rationals.  Python floats occurring in the source are modelled by exact
rational arithmetic; every concrete counterexample below was chosen so that
the double-precision evaluation of the source agrees with the exact value
at that input.
-/

/-- `MIN_SQRT_RATIO` of the Uniswap/Algebra V3 design, as hard-coded in
`SushiSwapV3Handler` and `SwaprV3Handler`. -/
def minSqrtRatio : ℕ := 4295128739

/-- `MAX_SQRT_RATIO` of the Uniswap/Algebra V3 design, as hard-coded in
`SushiSwapV3Handler` and `SwaprV3Handler`. -/
def maxSqrtRatio : ℕ := 1461446703485210103287273052203988822378723970342

/-! ## Python `decimal.Decimal` arithmetic

`SushiSwapV3Handler.swap_exact_in` computes
`int(Decimal(str(p)) * (Decimal(1) - Decimal(str(slippage))))`.
The default `decimal` context rounds every arithmetic result to 28
significant digits with round-half-even.  We model a slippage written with
decimal coefficient `c` and scale `s` (that is, `slippage = c / 10^s`, the
exact value of the decimal string `str(slippage)`). -/

/-- Number of decimal digits of `n`, via fuel-bounded recursion so that the
kernel can evaluate it on literals.  Correct for every `n < 10^100`, which
covers all quantities occurring in this development. -/
def digitCountAux : ℕ → ℕ → ℕ
  | 0, _ => 1
  | f + 1, n => if n < 10 then 1 else digitCountAux f (n / 10) + 1

/-- Decimal digit count (`1` for `0`), defined for all `n < 10^100`. -/
def digitCount (n : ℕ) : ℕ := digitCountAux 100 n

/-- Rounding of the quotient `n / d` to the nearest integer, ties to even:
the rounding used by the default Python `decimal` context. -/
def rhe (n d : ℕ) : ℕ :=
  if d < 2 * (n % d) ∨ (2 * (n % d) = d ∧ (n / d) % 2 = 1) then n / d + 1 else n / d

/-- Precision of the default Python `decimal` context. -/
def decPrec : ℕ := 28

/-- `int(Decimal(str(p)) * Decimal(m×10^-s))` for naturals: the exact
product coefficient `p * m` is kept when it has at most 28 digits and
otherwise rounded half-even to 28 significant digits (the effect of the
default context on `Decimal.__mul__`); the value is then scaled by
`10^-s` and truncated to an integer by `int()`. -/
def decTrunc (p m s : ℕ) : ℕ :=
  if digitCount (p * m) ≤ decPrec then p * m / 10 ^ s
  else
    rhe (p * m) (10 ^ (digitCount (p * m) - decPrec)) *
      10 ^ (digitCount (p * m) - decPrec) / 10 ^ s

/-! ## Price limits

`SushiSwapV3Handler.swap_exact_in` (swap.py lines 221-236) reads `slot0`,
then computes
`int(Decimal(str(p)) * (Decimal(1) ∓ Decimal(str(slippage))))` and clamps
with `max(_, MIN_SQRT_RATIO)` (decreasing, `zeroForOne`) or
`min(_, MAX_SQRT_RATIO)` (increasing).  `Decimal(1) - Decimal(str(t))` is
the exact decimal `(10^s - c)/10^s`; when `c > 10^s` Python obtains a
negative product, truncates toward zero and the `max` clamp returns
`MIN_SQRT_RATIO`; the natural subtraction below yields `0` and the clamp
returns the same value, so the embedding agrees on every input. -/

/-- Price limit of `SushiSwapV3Handler.swap_exact_in` for slippage
`c / 10^s`; `zeroForOne = true` is the price-decreasing direction. -/
def sushiPriceLimit (p c s : ℕ) (zeroForOne : Bool) : ℕ :=
  if zeroForOne then max (decTrunc p (10 ^ s - c) s) minSqrtRatio
  else min (decTrunc p (10 ^ s + c) s) maxSqrtRatio

/-- Default slippage of `SushiSwapV3Handler.swap_exact_in`
(`slippage: float = 0.005`, swap.py line 166). -/
def sushiDefaultSlippage : ℚ := 5 / 1000

/-- Default slippage of `BalancerSwapHandler.swap_exact_in`
(`slippage=0.05`, balancer/swap.py line 167). -/
def balancerDefaultSlippage : ℚ := 5 / 100

/-- Price limit of the `swap_gno_yes_to_sdai_yes` command path in
`src/main.py` (lines 331-339): `int(current_sqrt_price * 0.95)`, with no
clamping to `MIN_SQRT_RATIO`.  The float multiplication is modelled by
exact rational arithmetic; at the concrete inputs used below the
double-precision value truncates to the same integer. -/
def mainLimitDown (p : ℕ) : ℕ := p * 95 / 100

/-- Price limit of the increasing-direction command paths in `src/main.py`
(for example `swap_sdai_yes_to_gno_yes`, lines 369-380):
`int(current_sqrt_price * 1.2)`, with no clamping to `MAX_SQRT_RATIO`. -/
def mainLimitUp (p : ℕ) : ℕ := p * 12 / 10

/-- Modelled from the spec (section 4.1): the claimed price-limit formula
`max(p * (1 - t), MIN_SQRT_RATIO)` for the decreasing direction and
`min(p * (1 + t), MAX_SQRT_RATIO)` for the increasing direction, in exact
arithmetic.  Used only to compare the code's computation against the
specified one. -/
def specPriceLimit (p : ℚ) (increasing : Bool) (t : ℚ) : ℚ :=
  if increasing then min (p * (1 + t)) (maxSqrtRatio : ℚ)
  else max (p * (1 - t)) (minSqrtRatio : ℚ)

/-! ### Digit-count correctness -/

theorem digitCountAux_pos (f n : ℕ) : 1 ≤ digitCountAux f n := by
  cases f with
  | zero => simp [digitCountAux]
  | succ f =>
      simp only [digitCountAux]
      split <;> omega

theorem digitCountAux_lt (f : ℕ) : ∀ n : ℕ, n < 10 ^ f →
    n < 10 ^ digitCountAux f n := by
  induction f with
  | zero =>
      intro n hn
      interval_cases n
      simp [digitCountAux]
  | succ f ih =>
      intro n hn
      simp only [digitCountAux]
      split
      · next h => simpa using h
      · next h =>
          have hdiv : n / 10 < 10 ^ f := by
            rw [Nat.div_lt_iff_lt_mul (by norm_num)]
            calc n < 10 ^ (f + 1) := hn
            _ = 10 ^ f * 10 := by ring
          have hih : n / 10 + 1 ≤ 10 ^ digitCountAux f (n / 10) := ih (n / 10) hdiv
          calc n < (n / 10) * 10 + 10 := by omega
          _ = (n / 10 + 1) * 10 := by ring
          _ ≤ 10 ^ digitCountAux f (n / 10) * 10 := Nat.mul_le_mul_right 10 hih
          _ = 10 ^ (digitCountAux f (n / 10) + 1) := (pow_succ 10 _).symm

theorem digitCountAux_le (f : ℕ) : ∀ n : ℕ, n < 10 ^ f → 1 ≤ n →
    10 ^ (digitCountAux f n - 1) ≤ n := by
  induction f with
  | zero =>
      intro n hn h1
      omega
  | succ f ih =>
      intro n hn h1
      simp only [digitCountAux]
      split
      · simpa
      · next h =>
          push_neg at h
          have hdiv : n / 10 < 10 ^ f := by
            rw [Nat.div_lt_iff_lt_mul (by norm_num)]
            calc n < 10 ^ (f + 1) := hn
            _ = 10 ^ f * 10 := by ring
          have h1' : 1 ≤ n / 10 := by omega
          have := ih (n / 10) hdiv h1'
          have hpos := digitCountAux_pos f (n / 10)
          have heq : digitCountAux f (n / 10) + 1 - 1 = (digitCountAux f (n / 10) - 1) + 1 := by
            omega
          rw [heq, pow_succ]
          calc 10 ^ (digitCountAux f (n / 10) - 1) * 10 ≤ (n / 10) * 10 := by
                exact Nat.mul_le_mul_right 10 this
          _ ≤ n := Nat.div_mul_le_self n 10

theorem digitCount_lt (n : ℕ) (h : n < 10 ^ 100) : n < 10 ^ digitCount n :=
  digitCountAux_lt 100 n h

theorem digitCount_le (n : ℕ) (h : n < 10 ^ 100) (h1 : 1 ≤ n) :
    10 ^ (digitCount n - 1) ≤ n :=
  digitCountAux_le 100 n h h1

/-! ### Half-even rounding error bound -/

theorem rhe_mul_le (n d : ℕ) (hd : 0 < d) : 2 * (rhe n d * d) ≤ 2 * n + d := by
  have hmod := Nat.mod_lt n hd
  have hdm : d * (n / d) + n % d = n := Nat.div_add_mod n d
  unfold rhe
  split
  · next h =>
      have hr : d ≤ 2 * (n % d) := by
        rcases h with h | h
        · omega
        · omega
      nlinarith
  · nlinarith [Nat.div_mul_le_self n d]

theorem le_rhe_mul (n d : ℕ) (hd : 0 < d) : 2 * n ≤ 2 * (rhe n d * d) + d := by
  have hmod := Nat.mod_lt n hd
  have hdm : d * (n / d) + n % d = n := Nat.div_add_mod n d
  unfold rhe
  split
  · next h => nlinarith
  · next h =>
      push_neg at h
      have hr : 2 * (n % d) ≤ d := by
        have := h.1
        omega
      nlinarith

/-! ### Error bounds for the 28-digit decimal computation

`decTrunc p m s` differs from the exact value `p * m / 10^s` by at most a
relative error of one part in `2 * 10^27` (from rounding the coefficient to
28 significant digits) plus one unit (from the final `int()` truncation).
Both bounds are stated multiplied out, over `ℕ`. -/

theorem digitCount_zero : digitCount 0 = 1 := by decide

theorem decTrunc_pos_digits (p m : ℕ) (h : decPrec < digitCount (p * m)) :
    1 ≤ p * m := by
  rcases Nat.eq_zero_or_pos (p * m) with h0 | h1
  · rw [h0, digitCount_zero] at h
    simp [decPrec] at h
  · exact h1

theorem pow_digits_le (p m : ℕ) (hv : p * m < 10 ^ 100)
    (h : decPrec < digitCount (p * m)) :
    10 ^ (digitCount (p * m) - decPrec + 27) ≤ p * m := by
  have h1 := digitCount_le (p * m) hv (decTrunc_pos_digits p m h)
  have h2 : digitCount (p * m) - 1 = digitCount (p * m) - decPrec + 27 := by
    simp only [decPrec] at h ⊢
    omega
  rwa [h2] at h1

theorem decTrunc_mul_le (p m s : ℕ) (hv : p * m < 10 ^ 100) :
    decTrunc p m s * 10 ^ s * (2 * 10 ^ 27) ≤ p * m * (2 * 10 ^ 27 + 1) := by
  unfold decTrunc
  split
  · next hk =>
      have h1 : p * m / 10 ^ s * 10 ^ s ≤ p * m := Nat.div_mul_le_self _ _
      calc p * m / 10 ^ s * 10 ^ s * (2 * 10 ^ 27) ≤ p * m * (2 * 10 ^ 27) :=
            Nat.mul_le_mul_right _ h1
      _ ≤ p * m * (2 * 10 ^ 27 + 1) := Nat.mul_le_mul_left _ (by omega)
  · next hk =>
      push_neg at hk
      have hd : (0 : ℕ) < 10 ^ (digitCount (p * m) - decPrec) :=
        Nat.pos_pow_of_pos _ (by norm_num)
      have hr := rhe_mul_le (p * m) (10 ^ (digitCount (p * m) - decPrec)) hd
      have h3 := pow_digits_le p m hv hk
      have hL : rhe (p * m) (10 ^ (digitCount (p * m) - decPrec)) *
            10 ^ (digitCount (p * m) - decPrec) / 10 ^ s * 10 ^ s ≤
          rhe (p * m) (10 ^ (digitCount (p * m) - decPrec)) *
            10 ^ (digitCount (p * m) - decPrec) :=
        Nat.div_mul_le_self _ _
      calc rhe (p * m) (10 ^ (digitCount (p * m) - decPrec)) *
            10 ^ (digitCount (p * m) - decPrec) / 10 ^ s * 10 ^ s * (2 * 10 ^ 27)
          ≤ rhe (p * m) (10 ^ (digitCount (p * m) - decPrec)) *
              10 ^ (digitCount (p * m) - decPrec) * (2 * 10 ^ 27) :=
            Nat.mul_le_mul_right _ hL
      _ = 2 * (rhe (p * m) (10 ^ (digitCount (p * m) - decPrec)) *
              10 ^ (digitCount (p * m) - decPrec)) * 10 ^ 27 := by ring
      _ ≤ (2 * (p * m) + 10 ^ (digitCount (p * m) - decPrec)) * 10 ^ 27 :=
            Nat.mul_le_mul_right _ hr
      _ = 2 * (p * m) * 10 ^ 27 + 10 ^ (digitCount (p * m) - decPrec + 27) := by
            rw [pow_add]
            ring
      _ ≤ 2 * (p * m) * 10 ^ 27 + p * m := by omega
      _ = p * m * (2 * 10 ^ 27 + 1) := by ring

theorem mul_le_decTrunc (p m s : ℕ) (hv : p * m < 10 ^ 100) :
    p * m * (2 * 10 ^ 27 - 1) ≤ (decTrunc p m s + 1) * 10 ^ s * (2 * 10 ^ 27) := by
  have hD : (0 : ℕ) < 10 ^ s := Nat.pos_pow_of_pos _ (by norm_num)
  unfold decTrunc
  split
  · next hk =>
      have hfloor : p * m < (p * m / 10 ^ s + 1) * 10 ^ s := by
        have h1 := Nat.div_add_mod (p * m) (10 ^ s)
        have h2 := Nat.mod_lt (p * m) hD
        nlinarith
      calc p * m * (2 * 10 ^ 27 - 1) ≤ p * m * (2 * 10 ^ 27) :=
            Nat.mul_le_mul_left _ (by omega)
      _ ≤ (p * m / 10 ^ s + 1) * 10 ^ s * (2 * 10 ^ 27) :=
            Nat.mul_le_mul_right _ (le_of_lt hfloor)
  · next hk =>
      push_neg at hk
      have hd : (0 : ℕ) < 10 ^ (digitCount (p * m) - decPrec) :=
        Nat.pos_pow_of_pos _ (by norm_num)
      have hr := le_rhe_mul (p * m) (10 ^ (digitCount (p * m) - decPrec)) hd
      have h3 := pow_digits_le p m hv hk
      have hfloor : rhe (p * m) (10 ^ (digitCount (p * m) - decPrec)) *
            10 ^ (digitCount (p * m) - decPrec) ≤
          (rhe (p * m) (10 ^ (digitCount (p * m) - decPrec)) *
              10 ^ (digitCount (p * m) - decPrec) / 10 ^ s + 1) * 10 ^ s := by
        have h1 := Nat.div_add_mod (rhe (p * m) (10 ^ (digitCount (p * m) - decPrec)) *
          10 ^ (digitCount (p * m) - decPrec)) (10 ^ s)
        have h2 := Nat.mod_lt (rhe (p * m) (10 ^ (digitCount (p * m) - decPrec)) *
          10 ^ (digitCount (p * m) - decPrec)) hD
        nlinarith
      have hstep : p * m * (2 * 10 ^ 27) ≤
          2 * (rhe (p * m) (10 ^ (digitCount (p * m) - decPrec)) *
            10 ^ (digitCount (p * m) - decPrec)) * 10 ^ 27 + p * m := by
        calc p * m * (2 * 10 ^ 27) = 2 * (p * m) * 10 ^ 27 := by ring
        _ ≤ (2 * (rhe (p * m) (10 ^ (digitCount (p * m) - decPrec)) *
                10 ^ (digitCount (p * m) - decPrec)) +
              10 ^ (digitCount (p * m) - decPrec)) * 10 ^ 27 :=
            Nat.mul_le_mul_right _ hr
        _ = 2 * (rhe (p * m) (10 ^ (digitCount (p * m) - decPrec)) *
                10 ^ (digitCount (p * m) - decPrec)) * 10 ^ 27 +
              10 ^ (digitCount (p * m) - decPrec + 27) := by
            rw [pow_add]
            ring
        _ ≤ 2 * (rhe (p * m) (10 ^ (digitCount (p * m) - decPrec)) *
                10 ^ (digitCount (p * m) - decPrec)) * 10 ^ 27 + p * m := by omega
      have hmain : p * m * (2 * 10 ^ 27 - 1) ≤
          2 * (rhe (p * m) (10 ^ (digitCount (p * m) - decPrec)) *
            10 ^ (digitCount (p * m) - decPrec)) * 10 ^ 27 := by
        have hsplit : p * m * (2 * 10 ^ 27 - 1) + p * m = p * m * (2 * 10 ^ 27) := by
          have h9 : 2 * 10 ^ 27 - 1 + 1 = 2 * 10 ^ 27 := by norm_num
          calc p * m * (2 * 10 ^ 27 - 1) + p * m = p * m * (2 * 10 ^ 27 - 1 + 1) := by ring
          _ = p * m * (2 * 10 ^ 27) := by rw [h9]
        omega
      calc p * m * (2 * 10 ^ 27 - 1)
          ≤ 2 * (rhe (p * m) (10 ^ (digitCount (p * m) - decPrec)) *
              10 ^ (digitCount (p * m) - decPrec)) * 10 ^ 27 := hmain
      _ = rhe (p * m) (10 ^ (digitCount (p * m) - decPrec)) *
            10 ^ (digitCount (p * m) - decPrec) * (2 * 10 ^ 27) := by ring
      _ ≤ (rhe (p * m) (10 ^ (digitCount (p * m) - decPrec)) *
              10 ^ (digitCount (p * m) - decPrec) / 10 ^ s + 1) * 10 ^ s *
            (2 * 10 ^ 27) :=
            Nat.mul_le_mul_right _ hfloor

/-! ## Claim C1: price limits across the code paths that derive them -/

/-- C1 (amended): in `SushiSwapV3Handler.swap_exact_in` the price limit is
the clamp `max(_, MIN_SQRT_RATIO)` (decreasing) or `min(_, MAX_SQRT_RATIO)`
(increasing) of the 28-significant-digit decimal computation of
`p * (1 - t)` resp. `p * (1 + t)` (tolerance `t = c / 10^s`), so the limit
always lies inside the protocol bounds, and the unclamped value is within a
relative error of one part in `2 * 10^27` plus one truncated unit of the
exact product; the original claim's universal statement over every code
path fails (see the counterexample on `mainLimitDown`). -/
theorem sushi_price_limit_clamped (p c s : ℕ) (hc : c ≤ 10 ^ s) (hs : s ≤ 27)
    (hp : p ≤ maxSqrtRatio) :
    minSqrtRatio ≤ sushiPriceLimit p c s true ∧
    sushiPriceLimit p c s false ≤ maxSqrtRatio ∧
    sushiPriceLimit p c s true = max (decTrunc p (10 ^ s - c) s) minSqrtRatio ∧
    sushiPriceLimit p c s false = min (decTrunc p (10 ^ s + c) s) maxSqrtRatio ∧
    decTrunc p (10 ^ s - c) s * 10 ^ s * (2 * 10 ^ 27) ≤
      p * (10 ^ s - c) * (2 * 10 ^ 27 + 1) ∧
    p * (10 ^ s - c) * (2 * 10 ^ 27 - 1) ≤
      (decTrunc p (10 ^ s - c) s + 1) * 10 ^ s * (2 * 10 ^ 27) ∧
    decTrunc p (10 ^ s + c) s * 10 ^ s * (2 * 10 ^ 27) ≤
      p * (10 ^ s + c) * (2 * 10 ^ 27 + 1) ∧
    p * (10 ^ s + c) * (2 * 10 ^ 27 - 1) ≤
      (decTrunc p (10 ^ s + c) s + 1) * 10 ^ s * (2 * 10 ^ 27) := by
  have hmax : p ≤ 10 ^ 49 := by
    calc p ≤ maxSqrtRatio := hp
    _ ≤ 10 ^ 49 := by norm_num [maxSqrtRatio]
  have hfac : 10 ^ s + c ≤ 10 ^ 28 := by
    have h1 : (10 : ℕ) ^ s ≤ 10 ^ 27 := Nat.pow_le_pow_right (by norm_num) hs
    omega
  have hv1 : p * (10 ^ s - c) < 10 ^ 100 := by
    have : p * (10 ^ s - c) ≤ 10 ^ 49 * 10 ^ 28 := Nat.mul_le_mul hmax (by omega)
    calc p * (10 ^ s - c) ≤ 10 ^ 49 * 10 ^ 28 := this
    _ < 10 ^ 100 := by norm_num
  have hv2 : p * (10 ^ s + c) < 10 ^ 100 := by
    have : p * (10 ^ s + c) ≤ 10 ^ 49 * 10 ^ 28 := Nat.mul_le_mul hmax hfac
    calc p * (10 ^ s + c) ≤ 10 ^ 49 * 10 ^ 28 := this
    _ < 10 ^ 100 := by norm_num
  refine ⟨?_, ?_, ?_, ?_, ?_, ?_, ?_, ?_⟩
  · exact le_max_right _ _
  · exact min_le_right _ _
  · simp [sushiPriceLimit]
  · simp [sushiPriceLimit]
  · exact decTrunc_mul_le p (10 ^ s - c) s hv1
  · exact mul_le_decTrunc p (10 ^ s - c) s hv1
  · exact decTrunc_mul_le p (10 ^ s + c) s hv2
  · exact mul_le_decTrunc p (10 ^ s + c) s hv2

/-- Witness for `sushi_price_limit_clamped` at `p = 2^96`, tolerance
`0.05`. -/
theorem sushi_price_limit_clamped_witness :
    (5 ≤ 10 ^ 2 ∧ 2 ≤ 27 ∧ 2 ^ 96 ≤ maxSqrtRatio) ∧
    minSqrtRatio ≤ sushiPriceLimit (2 ^ 96) 5 2 true :=
  ⟨⟨by norm_num, by norm_num, by norm_num [maxSqrtRatio]⟩,
    (sushi_price_limit_clamped (2 ^ 96) 5 2 (by norm_num) (by norm_num)
      (by norm_num [maxSqrtRatio])).1⟩

/-- C1 (counterexample): the `swap_gno_yes_to_sdai_yes` path of
`src/main.py` derives its price limit as `int(current_sqrt_price * 0.95)`
with no clamp; for the in-range price `p = 4295128740` and tolerance
`0.05` the code's limit is `4080372303`, strictly below `MIN_SQRT_RATIO`,
whereas the claimed formula gives `max(p * 0.95, MIN_SQRT_RATIO) =
MIN_SQRT_RATIO`. -/
theorem main_limit_unclamped_counterexample :
    mainLimitDown 4295128740 = 4080372303 ∧
    minSqrtRatio ≤ 4295128740 ∧ (4295128740 : ℕ) ≤ maxSqrtRatio ∧
    mainLimitDown 4295128740 < minSqrtRatio ∧
    specPriceLimit 4295128740 false (5 / 100) = (minSqrtRatio : ℚ) ∧
    (mainLimitDown 4295128740 : ℚ) ≠ specPriceLimit 4295128740 false (5 / 100) := by
  have h1 : mainLimitDown 4295128740 = 4080372303 := by decide
  have h2 : specPriceLimit 4295128740 false (5 / 100) = (minSqrtRatio : ℚ) := by
    unfold specPriceLimit
    rw [if_neg (by simp)]
    rw [max_eq_right]
    norm_num [minSqrtRatio]
  refine ⟨h1, by norm_num [minSqrtRatio], by norm_num [maxSqrtRatio], ?_, h2, ?_⟩
  · rw [h1]
    norm_num [minSqrtRatio]
  · rw [h1, h2]
    norm_num [minSqrtRatio]

/-! ## Claim C7: scenario A, price `2^96`, tolerance `0.05`, decreasing -/

/-- C7 (counterexample): `0.95 * 2^96` is not an integer, so the computed
(integer) limit cannot equal it exactly; the code's `Decimal` computation
yields `75266754388551120713866752820`, which differs from `0.95 * 2^96 =
75266754388551120713866752819.2`. -/
theorem scenario_a_not_exact :
    (sushiPriceLimit (2 ^ 96) 5 2 true : ℚ) ≠ (1 - 5 / 100) * 2 ^ 96 := by
  have h : sushiPriceLimit (2 ^ 96) 5 2 true = 75266754388551120713866752820 := by
    decide
  rw [h]
  norm_num

/-- C7 (amended): for `sqrtPriceX96 = 2^96` and tolerance `0.05` in the
decreasing direction the handler computes the limit
`75266754388551120713866752820`, the 28-significant-digit rounding of
`0.95 * 2^96`; it lies within one unit above `0.95 * 2^96` and is strictly
above `MIN_SQRT_RATIO`, so the clamp does not alter it. -/
theorem scenario_a_value :
    sushiPriceLimit (2 ^ 96) 5 2 true = 75266754388551120713866752820 ∧
    decTrunc (2 ^ 96) 95 2 = 75266754388551120713866752820 ∧
    minSqrtRatio < 75266754388551120713866752820 ∧
    (1 - 5 / 100) * 2 ^ 96 ≤ (75266754388551120713866752820 : ℚ) ∧
    (75266754388551120713866752820 : ℚ) ≤ (1 - 5 / 100) * 2 ^ 96 + 1 := by
  refine ⟨by decide, by decide, by norm_num [minSqrtRatio], by norm_num, by norm_num⟩

/-! ## Claim C8: default tolerance and tolerance validation -/

/-- C8 (counterexample): the SushiSwap handler's default slippage is
`0.005`, not `0.05`; and a tolerance outside `[0, 1)` is not rejected: for
tolerance `2.0` (decimal coefficient 20, scale 1) the decreasing-direction
computation still produces the clamped limit `MIN_SQRT_RATIO` instead of
failing. -/
theorem default_tolerance_counterexample :
    sushiDefaultSlippage ≠ 5 / 100 ∧
    sushiPriceLimit (2 ^ 96) 20 1 true = minSqrtRatio := by
  constructor
  · norm_num [sushiDefaultSlippage]
  · decide

/-- C8 (amended): the Balancer handler's default slippage is `0.05` while
the SushiSwap handler's default is `0.005`, and neither validates the
tolerance: every tolerance `c / 10^s ≥ 1` (outside `[0, 1)`) yields the
computed limit `MIN_SQRT_RATIO` in the decreasing direction rather than a
rejection. -/
theorem default_tolerance_amended :
    balancerDefaultSlippage = 5 / 100 ∧ sushiDefaultSlippage = 5 / 1000 ∧
    ∀ p c s : ℕ, 10 ^ s ≤ c → sushiPriceLimit p c s true = minSqrtRatio := by
  refine ⟨rfl, rfl, ?_⟩
  intro p c s hcs
  have hm : 10 ^ s - c = 0 := by omega
  have hzero : decTrunc p (10 ^ s - c) s = 0 := by
    rw [hm]
    unfold decTrunc
    rw [mul_zero, digitCount_zero]
    rw [if_pos (by norm_num [decPrec])]
    simp
  simp [sushiPriceLimit, hzero]

/-- Witness for the tolerance-validation part of
`default_tolerance_amended` at tolerance `2.0`. -/
theorem default_tolerance_amended_witness :
    10 ^ 1 ≤ 20 ∧ sushiPriceLimit 7 20 1 true = minSqrtRatio :=
  ⟨by norm_num, (default_tolerance_amended.2.2) 7 20 1 (by norm_num)⟩

/-! ## Venue swap executors: execution parameters, approvals, result deltas

`SwaprV3Handler.swap_exact_in` (swapr/swap.py lines 340-356) builds its
`exactInputSingle` parameter tuple with a hard-coded
`amount_out_minimum = 1` and `limitSqrtPrice = 0` (no limit).
`BalancerSwapHandler.swap_exact_in` (balancer/swap.py lines 245-311) runs
`querySwapExactIn` in the same attempt and sets
`minAmountOut = int(expected_amount_wei * (1 - slippage))`; after the
receipt it re-reads both balances, but line 189 unpacks
`initial_balance_in, _ = self._print_balances(...)`, discarding the
initial output balance, and line 295 then reads the never-bound name
`initial_balance_out`, so the delta computation raises `NameError` into
the handler's `except` (line 312) and a mined swap returns a failure
dictionary without deltas.
`SushiSwapV3Handler.swap_exact_in` (sushiswap/swap.py lines 279-290)
reports `balance_changes = {token_in: -amount_in, token_out: approx}`
where `approx` is a post-hoc spot-price estimate, with no balance
re-read. -/

/-- Parameter tuple passed by `SwaprV3Handler.swap_exact_in` to the Swapr
router's `exactInputSingle`. -/
structure SwaprExactInParams where
  tokenIn : ℕ
  tokenOut : ℕ
  recipient : ℕ
  deadline : ℕ
  amountIn : ℕ
  amountOutMinimum : ℕ
  limitSqrtPrice : ℕ

/-- The execution parameters actually built by
`SwaprV3Handler.swap_exact_in`: `amountOutMinimum` is the constant `1` wei
and `limitSqrtPrice` is `0`, the router's no-limit sentinel. -/
def swaprExecuteParams (tokenIn tokenOut recipient deadline amountIn : ℕ) :
    SwaprExactInParams :=
  ⟨tokenIn, tokenOut, recipient, deadline, amountIn, 1, 0⟩

/-- `minAmountOut` set by `BalancerSwapHandler.swap_exact_in` (line 267):
`int(expected_amount_wei * (1 - slippage))`, the quote scaled down by the
tolerance and truncated. -/
def balancerMinAmountOut (quote : ℕ) (slippage : ℚ) : ℤ :=
  ⌊(quote : ℚ) * (1 - slippage)⌋

/-- Modelled from the spec (section 4.3): `amountOutMinimum` set "from the
quote minus tolerance", in exact arithmetic. -/
def specAmountOutMinimum (quote : ℚ) (tolerance : ℚ) : ℚ :=
  quote * (1 - tolerance)

/-- The two balance reads surrounding an execution: input/output token
balances before the transaction and after the receipt. -/
structure ChainView where
  initIn : ℕ
  initOut : ℕ
  finIn : ℕ
  finOut : ℕ

/-- Result returned by `BalancerSwapHandler.swap_exact_in` once the swap
transaction is mined: the success flag and, when reported, the wei
deltas. -/
structure BalancerResult where
  success : Bool
  deltas : Option (ℤ × ℤ)

/-- The binding available under the name `initial_balance_out` when
line 295 evaluates: line 189 unpacks
`initial_balance_in, _ = self._print_balances(...)`, discarding the
second component, and no other statement assigns the name, so the lookup
fails (`none` models the unbound name). -/
def balancerInitialOutBalance : Option ℕ := none

/-- `BalancerSwapHandler.swap_exact_in` after a successfully mined swap
(lines 292-311): both balances are re-read and `delta_in_wei` is
computable, but `delta_out_wei = final_balance_out - initial_balance_out`
(line 295) reads the unbound name; the `NameError` propagates to the
`except` at line 312, which returns `{'success': False}` with no
`balance_changes`.  The success branch below is the code at lines
294-311, reachable only if the name were bound; the quote is an argument
only to witness that no branch uses it in a delta. -/
def balancerMinedResult (quote : ℕ) (chain : ChainView) : BalancerResult :=
  match balancerInitialOutBalance with
  | none => ⟨false, none⟩
  | some b =>
      ⟨true, some ((chain.finIn : ℤ) - chain.initIn, (chain.finOut : ℤ) - b)⟩

/-- Deltas reported by `SushiSwapV3Handler.swap_exact_in` on success
(lines 279-290): `-amount_in` and the spot-price simulation estimate; the
chain balances are an argument only to witness that the result ignores
them. -/
def sushiReportedDeltas (amountIn simOut : ℚ) (chain : ChainView) : ℚ × ℚ :=
  (-amountIn, simOut)

/-- Output-token delta reported by `SwaprV3Handler.swap_exact_in` on
success (line 411): `None` — the realized output is not computed at all. -/
def swaprReportedDeltaOut : Option ℚ := none

/-- Approval submitted by `SushiSwapV3Handler.swap_exact_in` (lines
190-212) when the router allowance is short: the unlimited amount
`2^256 - 1`, `none` when no approval is needed. -/
def sushiApprovalAmount (allowance amountIn : ℕ) : Option ℕ :=
  if allowance < amountIn then some (2 ^ 256 - 1) else none

/-- ERC-20 approval submitted by
`BalancerSwapHandler._ensure_permit2_approval` (lines 102-138) when the
Permit2 allowance is short: the unlimited amount `2^256 - 1`. -/
def permit2ApprovalAmount (allowance amount : ℕ) : Option ℕ :=
  if allowance < amount then some (2 ^ 256 - 1) else none

/-! ## Claim C2: fresh price limit and `amountOutMinimum` at execution -/

/-- C2 (counterexample): for a quoted output of `10^18` wei and tolerance
`0.05`, the claim requires `amountOutMinimum = 0.95 * 10^18`; the Swapr
execution path sets the constant `1` wei and a zero (disabled) price
limit instead. -/
theorem execute_min_out_counterexample :
    (swaprExecuteParams 1 2 3 4 (10 ^ 18)).amountOutMinimum = 1 ∧
    (swaprExecuteParams 1 2 3 4 (10 ^ 18)).limitSqrtPrice = 0 ∧
    ((swaprExecuteParams 1 2 3 4 (10 ^ 18)).amountOutMinimum : ℚ) ≠
      specAmountOutMinimum (10 ^ 18) (5 / 100) := by
  refine ⟨rfl, rfl, ?_⟩
  norm_num [swaprExecuteParams, specAmountOutMinimum]

/-- C2 (amended): the Balancer execution path sets `minAmountOut` to the
truncation of the quote reduced by the tolerance, where the quote is
re-queried in the same attempt; the Swapr execution path instead uses the
constant `amountOutMinimum = 1` wei and a zero (disabled) price limit, so
no fresh price limit is derived there. -/
theorem execute_min_out_amended :
    ∀ (quote : ℕ) (slippage : ℚ) (tIn tOut rcpt dl amtIn : ℕ),
      (balancerMinAmountOut quote slippage : ℚ) ≤
          specAmountOutMinimum quote slippage ∧
      specAmountOutMinimum quote slippage - 1 <
          balancerMinAmountOut quote slippage ∧
      (swaprExecuteParams tIn tOut rcpt dl amtIn).amountOutMinimum = 1 ∧
      (swaprExecuteParams tIn tOut rcpt dl amtIn).limitSqrtPrice = 0 := by
  intro quote slippage tIn tOut rcpt dl amtIn
  refine ⟨Int.floor_le _, Int.sub_one_lt_floor _, rfl, rfl⟩

/-! ## Claim C3: realized deltas from balance re-reads -/

/-- C3 (counterexample): a mined, successful SushiSwap execution with
`amount_in = 1` whose simulation estimate is `7` wei reports `7` as the
output delta even when the re-read balances (output token `50 → 55`)
changed by `5`: the reported delta comes from the simulation, not from a
balance re-read. -/
theorem realized_deltas_counterexample :
    (sushiReportedDeltas 1 7 ⟨100, 50, 99, 55⟩).2 = 7 ∧
    ((⟨100, 50, 99, 55⟩ : ChainView).finOut : ℚ) -
        (⟨100, 50, 99, 55⟩ : ChainView).initOut = 5 ∧
    (sushiReportedDeltas 1 7 ⟨100, 50, 99, 55⟩).2 ≠ 5 := by
  refine ⟨rfl, by norm_num [ChainView.finOut, ChainView.initOut], ?_⟩
  norm_num [sushiReportedDeltas]

/-- C3 (amended): no handler returns a success result whose deltas come
from balance re-reads.  A mined Balancer swap re-reads both balances but
its delta computation evaluates the unbound `initial_balance_out`, so the
handler returns a failure result carrying no deltas at all; the SushiSwap
handler's success result ignores the chain balances entirely, reporting
`-amount_in` and the simulation estimate; and the Swapr handler reports
no output delta. -/
theorem realized_deltas_amended :
    ∀ (q : ℕ) (chain chain' : ChainView) (amountIn simOut : ℚ),
      (balancerMinedResult q chain).success = false ∧
      (balancerMinedResult q chain).deltas = none ∧
      sushiReportedDeltas amountIn simOut chain =
        sushiReportedDeltas amountIn simOut chain' ∧
      (sushiReportedDeltas amountIn simOut chain).2 = simOut ∧
      swaprReportedDeltaOut = none := by
  intro q chain chain' amountIn simOut
  exact ⟨rfl, rfl, rfl, rfl, rfl⟩

/-! ## Claim C10: unlimited approvals -/

/-- C10: when the allowance is below the required input amount, both the
SushiSwap path (router spender) and the Balancer path (Permit2 spender)
submit an approval for the unlimited amount `2^256 - 1`, not for the
amount needed by the swap. -/
theorem unlimited_approval (allowance amt : ℕ) (h : allowance < amt) :
    sushiApprovalAmount allowance amt = some (2 ^ 256 - 1) ∧
    permit2ApprovalAmount allowance amt = some (2 ^ 256 - 1) ∧
    (amt ≠ 2 ^ 256 - 1 → sushiApprovalAmount allowance amt ≠ some amt) := by
  refine ⟨by simp [sushiApprovalAmount, h], by simp [permit2ApprovalAmount, h], ?_⟩
  intro hne
  simp only [sushiApprovalAmount, if_pos h]
  intro hcontra
  exact hne (Option.some_injective _ hcontra).symm

/-- Witness for `unlimited_approval`: allowance `0`, required amount `5`. -/
theorem unlimited_approval_witness :
    0 < 5 ∧ sushiApprovalAmount 0 5 = some (2 ^ 256 - 1) :=
  ⟨by norm_num, (unlimited_approval 0 5 (by norm_num)).1⟩

/-! ## Claim C4: fail-closed bundle simulation

`TenderlySimulationClient.simulate_bundle` (tenderly_client.py lines
174-250) posts the bundle and returns the parsed per-transaction result
list only when the response is a well-formed dictionary with a
`simulation_results` list (or, directly, a list); on timeout, HTTP error,
request failure, malformed JSON or any unexpected shape it returns the
single aggregate failure value `None`. -/

/-- Outcome of the POST to the simulate-bundle endpoint, as discriminated
by `simulate_bundle`; `α` is the type of one per-transaction result
object. -/
inductive SimApiOutcome (α : Type) where
  | timeout : SimApiOutcome α
  | httpError : ℕ → SimApiOutcome α
  | requestFailed : SimApiOutcome α
  | badJson : SimApiOutcome α
  | resultsList : List α → SimApiOutcome α
  | resultsNotList : SimApiOutcome α
  | directList : List α → SimApiOutcome α
  | unexpectedFormat : SimApiOutcome α

/-- Transport or server failure: every branch of `simulate_bundle` that
does not carry a parsed result list. -/
def SimApiOutcome.isFailure {α : Type} : SimApiOutcome α → Bool
  | .timeout => true
  | .httpError _ => true
  | .requestFailed => true
  | .badJson => true
  | .resultsNotList => true
  | .unexpectedFormat => true
  | .resultsList _ => false
  | .directList _ => false

/-- `TenderlySimulationClient.simulate_bundle`: `None` for an empty
transaction list, the parsed list for a well-formed response, `None` on
every failure. -/
def simulateBundle {α : Type} (txs : List ℕ) (o : SimApiOutcome α) :
    Option (List α) :=
  if txs.isEmpty then none
  else
    match o with
    | .resultsList rs => some rs
    | .directList rs => some rs
    | _ => none

/-- C4: whenever the transport or the server fails (timeout, HTTP error,
request failure, malformed or unexpectedly-shaped response),
`simulate_bundle` returns the aggregate failure `None` — never a partial
list of per-transaction results. -/
theorem simulate_bundle_fail_closed {α : Type} (txs : List ℕ)
    (o : SimApiOutcome α) (h : o.isFailure = true) :
    simulateBundle txs o = none := by
  unfold simulateBundle
  split
  · rfl
  · cases o <;> simp_all [SimApiOutcome.isFailure]

/-- Witness for `simulate_bundle_fail_closed`: a two-transaction bundle
hitting a timeout. -/
theorem simulate_bundle_fail_closed_witness :
    (SimApiOutcome.timeout : SimApiOutcome ℕ).isFailure = true ∧
    simulateBundle [1, 2] (SimApiOutcome.timeout : SimApiOutcome ℕ) = none :=
  ⟨rfl, simulate_bundle_fail_closed [1, 2] SimApiOutcome.timeout rfl⟩

/-! ## Claim C9: merge rejects locally on a short side

`ConditionalTokenModel.merge_position` (conditional_token_model.py lines
211-229) reads both conditional balances and returns `(False, None)`
before any approval is checked or any transaction is built, signed or
broadcast, whenever either balance is below the merge amount. -/

/-- Chain state read by `merge_position`: the two conditional-token
balances and their router allowances. -/
structure MergeContext where
  yesBalance : ℕ
  noBalance : ℕ
  yesAllowance : ℕ
  noAllowance : ℕ

/-- Result of `merge_position`: the success flag, the number of
transactions submitted (approvals plus the merge itself), and the
resulting conditional balances. -/
structure MergeResult where
  success : Bool
  txCount : ℕ
  yesBalance : ℕ
  noBalance : ℕ

/-- `ConditionalTokenModel.merge_position` on amount `amountWei`: rejects
with no transaction when either side's balance is short; otherwise submits
the needed approvals and the merge, burning `amountWei` of each side. -/
def mergePosition (ctx : MergeContext) (amountWei : ℕ) : MergeResult :=
  if ctx.yesBalance < amountWei ∨ ctx.noBalance < amountWei then
    ⟨false, 0, ctx.yesBalance, ctx.noBalance⟩
  else
    ⟨true,
      (if ctx.yesAllowance < amountWei then 1 else 0) +
        (if ctx.noAllowance < amountWei then 1 else 0) + 1,
      ctx.yesBalance - amountWei, ctx.noBalance - amountWei⟩

/-- C9: when either the YES-side or the NO-side balance is below the merge
amount, `merge_position` fails locally: no transaction is built, signed or
broadcast, and both balances are left unchanged. -/
theorem merge_rejects_locally (ctx : MergeContext) (amountWei : ℕ)
    (h : ctx.yesBalance < amountWei ∨ ctx.noBalance < amountWei) :
    (mergePosition ctx amountWei).success = false ∧
    (mergePosition ctx amountWei).txCount = 0 ∧
    (mergePosition ctx amountWei).yesBalance = ctx.yesBalance ∧
    (mergePosition ctx amountWei).noBalance = ctx.noBalance := by
  unfold mergePosition
  rw [if_pos h]
  exact ⟨rfl, rfl, rfl, rfl⟩

/-- Witness for `merge_rejects_locally`: merging 10 with only 4 on the NO
side. -/
theorem merge_rejects_locally_witness :
    ((10 : ℕ) < 10 ∨ (4 : ℕ) < 10) ∧
    (mergePosition ⟨10, 4, 0, 0⟩ 10).success = false :=
  ⟨Or.inr (by norm_num), (merge_rejects_locally ⟨10, 4, 0, 0⟩ 10
    (Or.inr (by norm_num))).1⟩

/-! ## Balance reconciliation (step 6 of
`execute_arbitrage_sell_synthetic_gno`, main.py lines 796-846)

The inline balancing step compares the re-read sDAI-YES and sDAI-NO
balances with no dust tolerance.  If YES exceeds NO it calls
`sell_sdai_yes(bot, difference)`, which sells `round(difference, 6)`
sDAI-YES (conditional_token_actions.py line 32 rounds its argument to six
decimal places).  If NO exceeds YES and the sDAI balance covers the
difference it calls `buy_sdai_yes(bot, difference)`, which spends sDAI:
first a test swap of `min(difference * 0.1, 1e-5)` sDAI
(conditional_token_actions.py line 234), then `difference` sDAI, receiving
sDAI-YES at the pool's effective price.  Holdings are rationals in ether
units; `price` is the effective pool price in sDAI per sDAI-YES, and a
successful corrective swap is modelled as filling completely at that
price. -/

/-- Wallet holdings tracked by the balancing step. -/
structure Holdings where
  yes : ℚ
  no : ℚ
  sdai : ℚ
deriving DecidableEq

/-- Python's `round(x, 6)`: rounding to the nearest multiple of `10^-6`,
ties to even. -/
def roundTiesEven6 (x : ℚ) : ℚ :=
  (if 1 / 2 < x * 1000000 - ⌊x * 1000000⌋ ∨
      (x * 1000000 - ⌊x * 1000000⌋ = 1 / 2 ∧ ⌊x * 1000000⌋ % 2 ≠ 0) then
    (⌊x * 1000000⌋ : ℚ) + 1
  else (⌊x * 1000000⌋ : ℚ)) / 1000000

/-- One invocation of the inline balancing step: returns the holdings
after the corrective trade (if any) together with whether a trade was
performed.  Selling debits the rounded difference of sDAI-YES and credits
its proceeds in sDAI; buying debits the difference (plus the test swap's
input) in sDAI and credits the purchased sDAI-YES. -/
def reconcileStep (price : ℚ) (h : Holdings) : Holdings × Bool :=
  if h.no < h.yes then
    (⟨h.yes - roundTiesEven6 (h.yes - h.no), h.no,
      h.sdai + roundTiesEven6 (h.yes - h.no) * price⟩, true)
  else if h.yes < h.no then
    if h.no - h.yes ≤ h.sdai then
      (⟨h.yes + (h.no - h.yes + min ((h.no - h.yes) * (1 / 10)) (1 / 100000)) / price,
        h.no,
        h.sdai - (h.no - h.yes + min ((h.no - h.yes) * (1 / 10)) (1 / 100000))⟩,
        true)
    else (h, false)
  else (h, false)

/-! ## Claim C6: idempotence of reconcile -/

/-- Six-decimal rounding is the identity on integers. -/
theorem round6_int (n : ℤ) : roundTiesEven6 (n : ℚ) = n := by
  unfold roundTiesEven6
  have h1 : ((n : ℚ) * 1000000) = ((n * 1000000 : ℤ) : ℚ) := by push_cast; ring
  rw [h1, Int.floor_intCast]
  rw [if_neg]
  · push_cast
    ring
  · push_cast
    norm_num

/-- Evaluation of the buy branch on 0 sDAI-YES, 10 sDAI-NO, 100 sDAI at
price `1/2`: the step spends `10 + 1e-5` sDAI and credits
`20.00002` sDAI-YES. -/
theorem reconcileStep_buy_example : reconcileStep (1 / 2) ⟨0, 10, 100⟩ =
    (⟨1000001 / 50000, 10, 100 - 1000001 / 100000⟩, true) := by
  unfold reconcileStep
  rw [if_neg (by norm_num), if_pos (by norm_num), if_pos (by norm_num)]
  have hmin : min (((10 : ℚ) - 0) * (1 / 10)) (1 / 100000) = 1 / 100000 := by
    rw [min_eq_right]
    norm_num
  simp only [Prod.mk.injEq, Holdings.mk.injEq, hmin]
  norm_num

/-- C6 (counterexample): holdings of 0 sDAI-YES, 10 sDAI-NO and 100 sDAI
at pool price `0.5` sDAI per sDAI-YES: the first call buys with 10 sDAI
(plus the `1e-5` test swap), receiving about 20 sDAI-YES, so the second
call — with no intervening swaps — finds YES above NO and performs a
second corrective trade. -/
theorem reconcile_not_idempotent :
    (reconcileStep (1 / 2) ⟨0, 10, 100⟩).2 = true ∧
    (reconcileStep (1 / 2) (reconcileStep (1 / 2) ⟨0, 10, 100⟩).1).2 = true := by
  constructor
  · rw [reconcileStep_buy_example]
  · rw [reconcileStep_buy_example]
    unfold reconcileStep
    rw [if_pos (by norm_num)]

/-- C6 (amended): the balancing step is idempotent when the first call
performs no trade (holdings already equal, or the shortfall exceeds the
sDAI balance) and when it takes the sell branch with a difference that
six-decimal rounding leaves exact; it is not idempotent in general,
because the buy branch spends the difference in sDAI (plus a test swap)
rather than acquiring exactly the difference in sDAI-YES — at pool price
`0.5` the second call performs another corrective trade (see the
counterexample). -/
theorem reconcile_idempotent_amended (price : ℚ) (h : Holdings)
    (hcase : h.no = h.yes ∨
      (h.no < h.yes ∧ roundTiesEven6 (h.yes - h.no) = h.yes - h.no) ∨
      (h.yes < h.no ∧ h.sdai < h.no - h.yes)) :
    (reconcileStep price (reconcileStep price h).1).2 = false := by
  rcases hcase with heq | ⟨hlt, hround⟩ | ⟨hlt, hshort⟩
  · have h1 : reconcileStep price h = (h, false) := by
      unfold reconcileStep
      rw [if_neg (by rw [heq]; exact lt_irrefl _), if_neg (by rw [heq]; exact lt_irrefl _)]
    rw [h1]
    unfold reconcileStep
    rw [if_neg (by rw [heq]; exact lt_irrefl _), if_neg (by rw [heq]; exact lt_irrefl _)]
  · have h1 : (reconcileStep price h).1 =
        ⟨h.no, h.no, h.sdai + roundTiesEven6 (h.yes - h.no) * price⟩ := by
      unfold reconcileStep
      rw [if_pos hlt]
      simp only [hround]
      congr 1
      ring
    rw [h1]
    unfold reconcileStep
    simp
  · have h1 : reconcileStep price h = (h, false) := by
      unfold reconcileStep
      rw [if_neg (by exact not_lt.mpr (le_of_lt hlt)), if_pos hlt,
        if_neg (by exact not_le.mpr hshort)]
    rw [h1]
    unfold reconcileStep
    rw [if_neg (by exact not_lt.mpr (le_of_lt hlt)), if_pos hlt,
      if_neg (by exact not_le.mpr hshort)]

/-- Witness for `reconcile_idempotent_amended`: 10 sDAI-YES versus 4
sDAI-NO — the sell branch with an exactly representable difference. -/
theorem reconcile_idempotent_amended_witness :
    ((4 : ℚ) = 10 ∨
      ((4 : ℚ) < 10 ∧ roundTiesEven6 ((10 : ℚ) - 4) = (10 : ℚ) - 4) ∨
      ((10 : ℚ) < 4 ∧ (100 : ℚ) < (4 : ℚ) - 10)) ∧
    (reconcileStep 1 (reconcileStep 1 ⟨10, 4, 100⟩).1).2 = false := by
  have hr : roundTiesEven6 ((10 : ℚ) - 4) = (10 : ℚ) - 4 := by
    rw [show ((10 : ℚ) - 4) = ((6 : ℤ) : ℚ) by norm_num, round6_int]
  exact ⟨Or.inr (Or.inl ⟨by norm_num, hr⟩),
    reconcile_idempotent_amended 1 ⟨10, 4, 100⟩ (Or.inr (Or.inl ⟨by norm_num, hr⟩))⟩

/-! ## Claim C5: control flow after a leg failure

In `execute_arbitrage_sell_synthetic_gno` (main.py), the two conditional
leg swaps (steps 4 and 5, lines 699-780) are each wrapped in `try/except`
blocks whose handlers log the error and fall through ("Continuing with
arbitrage despite ... selling error"); unlike steps 1-3, a leg failure
does not `return`.  The run then always re-reads balances and enters the
balancing step (lines 782-846), recomputes `merge_amount =
min(sdai_yes_final, sdai_no_final)` from re-read balances, attempts the
merge whenever `merge_amount > 0` (lines 849-872), and always falls
through to the final report.  The step trace below records which steps are
attempted; the two failure flags are arguments only to witness that they
do not change the control path. -/

/-- Steps of the tail of the sell-synthetic-GNO arbitrage run. -/
inductive ArbStep where
  | legYes : ArbStep
  | legNo : ArbStep
  | reconcile : ArbStep
  | merge : ArbStep
  | report : ArbStep
deriving DecidableEq

/-- Steps attempted from step 4 on, given whether each leg swap raised,
the reconcile execution price, and the re-read holdings after the legs. -/
def arbTailSteps (leg1Fails leg2Fails : Bool) (price : ℚ) (post : Holdings) :
    List ArbStep :=
  [ArbStep.legYes, ArbStep.legNo, ArbStep.reconcile] ++
    (if 0 < min (reconcileStep price post).1.yes (reconcileStep price post).1.no
      then [ArbStep.merge] else []) ++ [ArbStep.report]

/-- Evaluation of the sell branch on 10 sDAI-YES, 5 sDAI-NO, 100 sDAI at
price `1`: the step sells the excess 5 sDAI-YES, leaving 5/5. -/
theorem reconcileStep_sell_example : reconcileStep 1 ⟨10, 5, 100⟩ =
    (⟨5, 5, 105⟩, true) := by
  have hr : roundTiesEven6 ((10 : ℚ) - 5) = 5 := by
    rw [show ((10 : ℚ) - 5) = ((5 : ℤ) : ℚ) by norm_num, round6_int]
    norm_num
  unfold reconcileStep
  rw [if_pos (by norm_num)]
  simp only [Prod.mk.injEq, Holdings.mk.injEq, hr]
  norm_num

/-- C5 (counterexample): the YES leg succeeds, the NO leg reverts
(`leg2Fails = true`), and the wallet after the legs holds 10 sDAI-YES, 5
sDAI-NO and 100 sDAI: the run does not halt — it proceeds through the
balancing step and then attempts the merge step (the balanced holdings
5/5 give `merge_amount = 5 > 0`) before reporting. -/
theorem leg_failure_still_merges :
    arbTailSteps false true 1 ⟨10, 5, 100⟩ =
      [ArbStep.legYes, ArbStep.legNo, ArbStep.reconcile, ArbStep.merge,
        ArbStep.report] ∧
    ArbStep.merge ∈ arbTailSteps false true 1 ⟨10, 5, 100⟩ := by
  have h : arbTailSteps false true 1 ⟨10, 5, 100⟩ =
      [ArbStep.legYes, ArbStep.legNo, ArbStep.reconcile, ArbStep.merge,
        ArbStep.report] := by
    unfold arbTailSteps
    rw [reconcileStep_sell_example]
    rw [if_pos (by norm_num)]
    rfl
  exact ⟨h, by rw [h]; simp⟩

/-- C5 (amended): a leg-swap failure does not halt the run: the attempted
step sequence is identical whether or not either leg fails; the balancing
step and the report are always attempted, and the merge step is attempted
exactly when the post-balancing holdings have `min(YES, NO) > 0` — it is
skipped only when that minimum is zero, not because a leg failed. -/
theorem leg_failure_no_halt :
    ∀ (f1 f2 : Bool) (price : ℚ) (post : Holdings),
      arbTailSteps f1 f2 price post = arbTailSteps false false price post ∧
      ArbStep.reconcile ∈ arbTailSteps f1 f2 price post ∧
      ArbStep.report ∈ arbTailSteps f1 f2 price post ∧
      (ArbStep.merge ∈ arbTailSteps f1 f2 price post ↔
        0 < min (reconcileStep price post).1.yes
          (reconcileStep price post).1.no) := by
  intro f1 f2 price post
  refine ⟨rfl, by simp [arbTailSteps], by simp [arbTailSteps], ?_⟩
  unfold arbTailSteps
  split
  · next hc => simp [hc]
  · next hc => simp [hc]
